import Mathlib

/-!
Verification of the docs-to-pdf pipeline (extractor, renderer driver, merger)
against its natural-language specification, via a shallow embedding of the
Python sources (`extract_urls.py`, `save_pages.py`, `merge_pdfs.py`).

HTML parsing (lxml), JSON serialisation (json), PDF reading/writing (pypdf)
and the headless-browser subprocess are external libraries in the source and
are modelled at their interfaces: an HTML document is the ordered list of its
anchor elements, a PDF file is its page count or a corrupt marker, the
filesystem is the set of file names present, the external command is an
oracle giving each attempt's exit code and whether the output file exists.
All repository-side logic (filtering, whitespace normalisation, name
sanitisation, duplicate suffixing, retry/backoff, skip-if-exists, ordered
merge and bookmark offsets, result counting) is translated statement by
statement from the Python.
-/

namespace DocsToPdf

/-- Helper: drop the longest suffix of characters satisfying `p`
(Python's `str.rstrip`). -/
def dropTrailing (p : Char → Bool) (s : String) : String :=
  ⟨(s.data.reverse.dropWhile p).reverse⟩

/-- Python `str.split()` on a character list: split on whitespace runs,
discarding empty pieces. -/
def pyWordsAux : List Char → List Char → List (List Char)
  | [], acc => if acc.isEmpty then [] else [acc.reverse]
  | c :: cs, acc =>
    if c.isWhitespace then
      if acc.isEmpty then pyWordsAux cs [] else acc.reverse :: pyWordsAux cs []
    else pyWordsAux cs (c :: acc)

/-- Model of `' '.join(title.split())` from `extract_urls.py` line 29:
collapse whitespace runs to single spaces, trimming the ends. -/
def normalizeWs (s : String) : String :=
  ⟨List.intercalate [' '] (pyWordsAux s.data [])⟩

/-- Characters kept by `safe_title` (`extract_urls.py` line 57):
alphanumeric, space, `-`, `_`, `.`. -/
def safeChar (c : Char) : Bool :=
  c.isAlphanum || c = ' ' || c = '-' || c = '_' || c = '.'

/-- Function `safe_title` from `extract_urls.py`: keep only safe characters, then
strip trailing whitespace (`.rstrip()`). -/
def safe_title (title : String) : String :=
  dropTrailing Char.isWhitespace ⟨title.data.filter safeChar⟩

/-- One record of the manifest (`url`, `title`, `file_name` keys used by
`extract_urls_from_html`). -/
structure LinkRecord where
  url : String
  title : String
  file_name : String
deriving Repr, DecidableEq

/-- An anchor element of the input document: its `href` attribute (absent
when the element does not carry one) and the text content of its subtree
(lxml's `text_content()`). The document is modelled as its anchors in
document order; the lxml parse itself is an external library. -/
structure Anchor where
  href : Option String
  text : String
deriving Repr, DecidableEq

/-- Function `extract_urls_from_html` from `extract_urls.py` lines 14-40: for each
anchor carrying `href`, skip it when `href` is falsy (`if not href`),
normalise the text content's whitespace, skip it when the result is empty
(`if title.strip()`), otherwise emit `{url, title, file_name}` with
`file_name = safe_title(title) + ".pdf"`. -/
def extract_urls_from_html (anchors : List Anchor) : List LinkRecord :=
  anchors.filterMap fun a =>
    match a.href with
    | none => none
    | some href =>
      if href = "" then none
      else
        let title := normalizeWs a.text
        if title = "" then none
        else some ⟨href, title, safe_title title ++ ".pdf"⟩

/-- Python's `s.rstrip('.pdf')`: strips the longest trailing run of
characters drawn from the set `{'.', 'p', 'd', 'f'}` — not the literal
suffix `".pdf"` (`extract_urls.py` line 79). -/
def rstripPdfChars (s : String) : String :=
  dropTrailing (fun c => c = '.' || c = 'p' || c = 'd' || c = 'f') s

/-- Increment the count stored under key `k` in the association list
(Python `title_dict[key] += 1`). -/
def bumpKey (k : String) : List (String × Nat) → List (String × Nat)
  | [] => []
  | (k2, v) :: rest =>
    if k2 = k then (k2, v + 1) :: rest else (k2, v) :: bumpKey k rest

/-- The duplicate-title indexing loop of `extract_urls.py` `main`
(lines 72-82), with the `title_dict` threaded explicitly: on a repeated
`file_name`, bump its count `n` and rename the record to
`rstrip('.pdf') ++ "_" ++ (n+1) ++ ".pdf"`; the renamed name itself is
never entered into the dictionary. -/
def addIndexAux (dict : List (String × Nat)) : List LinkRecord → List LinkRecord
  | [] => []
  | l :: ls =>
    match dict.lookup l.file_name with
    | some n =>
      let renamed : LinkRecord :=
        { l with file_name :=
            rstripPdfChars l.file_name ++ "_" ++ toString (n + 1) ++ ".pdf" }
      renamed :: addIndexAux (bumpKey l.file_name dict) ls
    | none => l :: addIndexAux ((l.file_name, 1) :: dict) ls

/-- Collision handling of `main` in `extract_urls.py`, started from the
empty dictionary. -/
def addIndexForDuplicateTitles (links : List LinkRecord) : List LinkRecord :=
  addIndexAux [] links

/-! ### Page renderer (`save_pages.py`) -/

/-- What one invocation of the external rendering command yields, at the
interface `save_pages.py` observes: the subprocess exit code and whether
the expected output file `<outputDir>/<fileName>` exists afterwards. -/
structure AttemptOutcome where
  returncode : Int
  fileExists : Bool
deriving Repr, DecidableEq

/-- An attempt that `run_node_save` accepts: exit code `0` and the output
file present (`save_pages.py` lines 62-69). -/
def attemptOk (o : AttemptOutcome) : Bool :=
  o.returncode == 0 && o.fileExists

/-- Result of `run_node_save`: the returned code, the number of attempts
actually made, and the list of backoff waits (in seconds) slept between
attempts. -/
structure SaveRun where
  code : Int
  attempts : Nat
  waits : List Nat
deriving Repr, DecidableEq

/-- The retry loop of `run_node_save` (`save_pages.py` lines 60-95), over the
list of outcomes the remaining attempts would produce; `attempt` is the
current value of the Python loop variable, so `attempt < max_retries` holds
exactly when the outcome list has a successor element. On a failed attempt
that is not the last, sleep `2 ^ attempt` seconds and retry; a final
attempt with exit code `0` but no output file returns `1`, otherwise the
subprocess exit code is returned. -/
def runNodeSaveAux (attempt : Nat) : List AttemptOutcome → SaveRun
  | [] => ⟨0, 0, []⟩
  | [o] =>
    if attemptOk o then ⟨0, 1, []⟩
    else if o.returncode == 0 then ⟨1, 1, []⟩
    else ⟨o.returncode, 1, []⟩
  | o :: o2 :: rest =>
    if attemptOk o then ⟨0, 1, []⟩
    else
      let r := runNodeSaveAux (attempt + 1) (o2 :: rest)
      ⟨r.code, r.attempts + 1, 2 ^ attempt :: r.waits⟩

/-- Function `run_node_save` from `save_pages.py`: `for attempt in range(max_retries + 1)`
driven by an oracle giving each attempt's outcome. -/
def run_node_save (oracle : Nat → AttemptOutcome) (max_retries : Nat) : SaveRun :=
  runNodeSaveAux 0 ((List.range (max_retries + 1)).map oracle)

/-- Model of `full_url = base_url.rstrip('/') + '/' + link["url"]` from
`save_pages.py` line 121. -/
def full_url (base_url : String) (url : String) : String :=
  dropTrailing (fun c => c = '/') base_url ++ "/" ++ url

/-- Modelled from the spec's words, for comparison with `full_url`
(claim C3): join `baseUrl` and the record's relative `url` normalizing
exactly one separating slash between them, whatever trailing slashes
`baseUrl` has and whatever leading slashes `url` has. -/
def specJoinOneSlash (base_url : String) (url : String) : String :=
  dropTrailing (fun c => c = '/') base_url ++ "/" ++ ⟨url.data.dropWhile (fun c => c = '/')⟩

/-- Summary state of the per-record loop in `save_pages.py` `main`
(lines 126-141): the set of files present in the output directory, the
number of invocations of the external command, and the success/fail/skip
counters. -/
structure RenderSummary where
  fs : List String
  invocations : Nat
  succeeded : Nat
  failed : Nat
  skipped : Nat
deriving Repr, DecidableEq

/-- The per-record loop of `save_pages.py` `main`: skip a record whose
target file already exists, otherwise invoke `run_node_save`
(abstracted by `saveOk`, which tells whether the whole retrying save
eventually returns `0`; a `0` return implies the file was created, which
is exactly the check inside `run_node_save`, and a failed save is
modelled as leaving no output file). -/
def renderLoop (saveOk : LinkRecord → Bool) : List LinkRecord → List String → RenderSummary
  | [], fs => ⟨fs, 0, 0, 0, 0⟩
  | r :: rs, fs =>
    if r.file_name ∈ fs then
      let s := renderLoop saveOk rs fs
      { s with skipped := s.skipped + 1 }
    else if saveOk r then
      let s := renderLoop saveOk rs (r.file_name :: fs)
      { s with invocations := s.invocations + 1, succeeded := s.succeeded + 1 }
    else
      let s := renderLoop saveOk rs fs
      { s with invocations := s.invocations + 1, failed := s.failed + 1 }

/-! ### Merger (`merge_pdfs.py`) -/

/-- A PDF file as the merger's reader sees it: either readable with a page
count, or one whose opening raises (corrupt). -/
inductive PdfFile where
  | readable : Nat → PdfFile
  | corrupt : PdfFile
deriving Repr, DecidableEq

/-- One element of the `pdf_files` list built by `get_pdf_files_in_order`:
the record's title together with the file found at its path. -/
structure PdfEntry where
  title : String
  pdf : PdfFile
deriving Repr, DecidableEq

/-- Function `get_pdf_files_in_order` from `merge_pdfs.py` lines 24-37: walk the
manifest's links in order, keep those whose `file_name` exists in the PDF
directory (modelled as an association list from file name to content), and
warn-and-drop the absent ones. -/
def get_pdf_files_in_order (links : List LinkRecord) (pdfDir : List (String × PdfFile)) :
    List PdfEntry :=
  links.filterMap fun l => (pdfDir.lookup l.file_name).map fun p => ⟨l.title, p⟩

/-- One bookmark record of `merge_pdfs_with_bookmarks`: title, 0-based
start page in the merged document, page count. -/
structure Bookmark where
  title : String
  page : Nat
  page_count : Nat
deriving Repr, DecidableEq

/-- Accumulator of the merge loop in `merge_pdfs_with_bookmarks`
(`merge_pdfs.py` lines 57-85): running page offset, processed and error
counters, bookmarks recorded so far. -/
structure MergeAcc where
  current_page : Nat
  processed_count : Nat
  error_count : Nat
  bookmarks : List Bookmark
deriving Repr, DecidableEq

/-- One iteration of the merge loop: a corrupt file raises inside the
`try`, incrementing `error_count`; a readable file appends its pages,
records a bookmark at the current offset only when its page count is
positive, and increments `processed_count`. -/
def mergeStep (acc : MergeAcc) (f : PdfEntry) : MergeAcc :=
  match f.pdf with
  | .corrupt => { acc with error_count := acc.error_count + 1 }
  | .readable page_count =>
    let acc2 :=
      if 0 < page_count then
        { acc with
          bookmarks := acc.bookmarks ++ [⟨f.title, acc.current_page, page_count⟩],
          current_page := acc.current_page + page_count }
      else acc
    { acc2 with processed_count := acc2.processed_count + 1 }

/-- The structured result returned by `merge_pdfs_with_bookmarks`
(`merge_pdfs.py` lines 105-114): the file-size and path fields are
filesystem facts outside the model. -/
structure MergeResult where
  success : Bool
  page_count : Nat
  processed_count : Nat
  error_count : Nat
  bookmarks_count : Nat
  bookmarks : List Bookmark
deriving Repr, DecidableEq

/-- Function `merge_pdfs_with_bookmarks` from `merge_pdfs.py` lines 52-114: fold the
merge loop over the candidate files and package the counters; the final
write is modelled as completing, so `success` is `true` (the `except`
branch returning `success: False` fires only when writing the output file
itself raises). -/
def merge_pdfs_with_bookmarks (files : List PdfEntry) : MergeResult :=
  let acc := files.foldl mergeStep ⟨0, 0, 0, []⟩
  ⟨true, acc.current_page, acc.processed_count, acc.error_count,
    acc.bookmarks.length, acc.bookmarks⟩

/-! ### Manifest file round trip (`write_extracted_json` / `read_json`) -/

/-- JSON values, as far as the manifest uses them. The byte-level
serialisation is the `json` library; the structure written and read is
modelled directly. -/
inductive Json where
  | jstr : String → Json
  | jnum : Nat → Json
  | jarr : List Json → Json
  | jobj : List (String × Json) → Json

/-- Field lookup on a JSON object (`data["..."]` on the reading side). -/
def jlookup (j : Json) (k : String) : Option Json :=
  match j with
  | .jobj kvs => kvs.lookup k
  | _ => none

/-- The key sequence of a JSON object, for stating field names and order. -/
def jkeys : Json → List String
  | .jobj kvs => kvs.map Prod.fst
  | _ => []

/-- A link record as `extract_urls_from_html` builds it: the dict
`{"url": ..., "title": ..., "file_name": ...}` in that key order. -/
def encodeLink (l : LinkRecord) : Json :=
  .jobj [("url", .jstr l.url), ("title", .jstr l.title), ("file_name", .jstr l.file_name)]

/-- The payload written by `write_extracted_json` (`extract_urls.py`
lines 43-51): `{"totalCount": len(links), "baseUrl": base_url, "links": links}`. -/
def write_extracted_json (links : List LinkRecord) (base_url : String) : Json :=
  .jobj [("totalCount", .jnum links.length), ("baseUrl", .jstr base_url),
         ("links", .jarr (links.map encodeLink))]

/-- Read a string field back. -/
def decodeStr : Json → Option String
  | .jstr s => some s
  | _ => none

/-- Read a number field back. -/
def decodeNum : Json → Option Nat
  | .jnum n => some n
  | _ => none

/-- Reconstruct one link record from its JSON object, by the field
accesses the downstream stages perform (`link["url"]`, `link["title"]`,
`link["file_name"]`). -/
def decodeLink (j : Json) : Option LinkRecord :=
  match (jlookup j "url").bind decodeStr, (jlookup j "title").bind decodeStr,
        (jlookup j "file_name").bind decodeStr with
  | some u, some t, some f => some ⟨u, t, f⟩
  | _, _, _ => none

/-- Reconstruct the link list in order. -/
def decodeLinks : List Json → Option (List LinkRecord)
  | [] => some []
  | j :: js =>
    match decodeLink j, decodeLinks js with
    | some l, some ls => some (l :: ls)
    | _, _ => none

/-- The manifest structure the downstream stages read
(`data["totalCount"]`, `data["baseUrl"]`, `data["links"]`). -/
structure Manifest where
  totalCount : Nat
  baseUrl : String
  links : List LinkRecord
deriving Repr, DecidableEq

/-- Reading a manifest back (`read_json` in `save_pages.py` /
`read_json_file` in `merge_pdfs.py`, plus the downstream field accesses). -/
def read_manifest (j : Json) : Option Manifest :=
  match (jlookup j "totalCount").bind decodeNum, (jlookup j "baseUrl").bind decodeStr,
        jlookup j "links" with
  | some n, some b, some (.jarr js) => (decodeLinks js).map fun ls => ⟨n, b, ls⟩
  | _, _, _ => none

/-! ### Auxiliary definitions used by the statements -/

/-- Comparator modelled from the spec's words (claim C6): the spec keeps
every anchor that carries the target reference attribute and has non-empty
computed text, with no condition on the attribute's value. -/
def specExtractRecords (anchors : List Anchor) : List LinkRecord :=
  anchors.filterMap fun a =>
    match a.href with
    | none => none
    | some href =>
      let title := normalizeWs a.text
      if title = "" then none
      else some ⟨href, title, safe_title title ++ ".pdf"⟩

/-- The anchors the code keeps: reference attribute present and non-empty,
computed text non-empty. -/
def keepsAnchor (a : Anchor) : Bool :=
  match a.href with
  | none => false
  | some href => href != "" && normalizeWs a.text != ""

/-- The record the code emits for a kept anchor. -/
def anchorRecord (a : Anchor) : LinkRecord :=
  ⟨a.href.getD "", normalizeWs a.text, safe_title (normalizeWs a.text) ++ ".pdf"⟩

/-- Test: the merge loop read this entry successfully. -/
def entryReadable (f : PdfEntry) : Bool :=
  match f.pdf with
  | .readable _ => true
  | .corrupt => false

/-- Test: the merge loop raised while reading this entry. -/
def entryCorrupt (f : PdfEntry) : Bool :=
  match f.pdf with
  | .readable _ => false
  | .corrupt => true

/-- Test on a manifest record: its file is present in the directory and
readable. -/
def foundReadable (pdfDir : List (String × PdfFile)) (l : LinkRecord) : Bool :=
  match pdfDir.lookup l.file_name with
  | some (.readable _) => true
  | _ => false

/-- Test on a manifest record: its file is present in the directory but
corrupt. -/
def foundCorrupt (pdfDir : List (String × PdfFile)) (l : LinkRecord) : Bool :=
  match pdfDir.lookup l.file_name with
  | some .corrupt => true
  | _ => false

/-- The bookmark list the spec predicts for source documents given as
(title, page count) pairs: one entry per document, at the running page
offset. -/
def expectedBookmarks (start : Nat) : List (String × Nat) → List Bookmark
  | [] => []
  | (t, n) :: rest => ⟨t, start, n⟩ :: expectedBookmarks (start + n) rest

/-- Merger input in which every document is readable, from (title, page
count) pairs. -/
def readableEntries (docs : List (String × Nat)) : List PdfEntry :=
  docs.map fun d => ⟨d.1, .readable d.2⟩

/-- Concrete three-record manifest for the claim C2 scenario. -/
def c2Links : List LinkRecord :=
  [⟨"/a", "A", "A.pdf"⟩, ⟨"/b", "B", "B.pdf"⟩, ⟨"/c", "C", "C.pdf"⟩]

/-- Concrete directory for the claim C2 scenario: the first record's file
is readable, the second record's file is absent, the third is corrupt. -/
def c2Dir : List (String × PdfFile) :=
  [("A.pdf", .readable 1), ("C.pdf", .corrupt)]

/-- Concrete external-command oracle for claim C5: the first two attempts
exit non-zero, the third succeeds. -/
def c5Oracle : Nat → AttemptOutcome :=
  fun n => if n < 2 then ⟨1, false⟩ else ⟨0, true⟩

/-- Concrete one-record manifest for the claim C7 witness. -/
def c7Records : List LinkRecord := [⟨"/a", "A", "A.pdf"⟩]

/-! ### Lemmas about the merge loop -/

/-- One merge step increments `processed_count` exactly on readable
entries. -/
theorem mergeStep_processed_count (acc : MergeAcc) (f : PdfEntry) :
    (mergeStep acc f).processed_count
      = acc.processed_count + (if entryReadable f then 1 else 0) := by
  obtain ⟨t, pdf⟩ := f
  cases pdf with
  | readable n =>
    simp only [mergeStep, entryReadable]
    split <;> simp
  | corrupt => simp [mergeStep, entryReadable]

/-- One merge step increments `error_count` exactly on corrupt entries. -/
theorem mergeStep_error_count (acc : MergeAcc) (f : PdfEntry) :
    (mergeStep acc f).error_count
      = acc.error_count + (if entryCorrupt f then 1 else 0) := by
  obtain ⟨t, pdf⟩ := f
  cases pdf with
  | readable n =>
    simp only [mergeStep, entryCorrupt]
    split <;> simp
  | corrupt => simp [mergeStep, entryCorrupt]

/-- The merge fold counts readable entries in `processed_count` and
corrupt entries in `error_count`. -/
theorem mergeFold_counts (files : List PdfEntry) (acc : MergeAcc) :
    (files.foldl mergeStep acc).processed_count
        = acc.processed_count + (files.filter entryReadable).length
    ∧ (files.foldl mergeStep acc).error_count
        = acc.error_count + (files.filter entryCorrupt).length := by
  induction files generalizing acc with
  | nil => simp
  | cons f fs ih =>
    have h := ih (mergeStep acc f)
    simp only [List.foldl_cons, List.filter_cons]
    refine ⟨?_, ?_⟩
    · rw [h.1, mergeStep_processed_count]
      by_cases hf : entryReadable f
      · simp [hf]
        omega
      · simp [hf]
    · rw [h.2, mergeStep_error_count]
      by_cases hf : entryCorrupt f
      · simp [hf]
        omega
      · simp [hf]

/-- The entries kept by `get_pdf_files_in_order` correspond one-to-one to
the manifest records whose file is found, preserving readability. -/
theorem get_pdf_files_filter_counts (links : List LinkRecord)
    (dir : List (String × PdfFile)) :
    ((get_pdf_files_in_order links dir).filter entryReadable).length
      = (links.filter (foundReadable dir)).length
    ∧ ((get_pdf_files_in_order links dir).filter entryCorrupt).length
      = (links.filter (foundCorrupt dir)).length := by
  induction links with
  | nil => simp [get_pdf_files_in_order]
  | cons l ls ih =>
    simp only [get_pdf_files_in_order, List.filterMap_cons, List.filter_cons] at ih ⊢
    cases hl : dir.lookup l.file_name with
    | none => simpa [hl, foundReadable, foundCorrupt] using ih
    | some p =>
      cases p with
      | readable n =>
        simpa [hl, foundReadable, foundCorrupt, entryReadable, entryCorrupt,
          List.filter_cons] using ih
      | corrupt =>
        simpa [hl, foundReadable, foundCorrupt, entryReadable, entryCorrupt,
          List.filter_cons] using ih

/-- The merge fold over all-readable, all-positive documents: pages
accumulate, every document is processed, no errors, and one bookmark per
document is appended at the running offset. -/
theorem mergeFold_readable_pos (docs : List (String × Nat)) (acc : MergeAcc)
    (hpos : ∀ d ∈ docs, 0 < d.2) :
    (readableEntries docs).foldl mergeStep acc
      = ⟨acc.current_page + (docs.map Prod.snd).sum,
         acc.processed_count + docs.length,
         acc.error_count,
         acc.bookmarks ++ expectedBookmarks acc.current_page docs⟩ := by
  induction docs generalizing acc with
  | nil => simp [readableEntries, expectedBookmarks]
  | cons d ds ih =>
    obtain ⟨t, n⟩ := d
    have hn : 0 < n := hpos (t, n) (by simp)
    have hstep : mergeStep acc ⟨t, .readable n⟩
        = ⟨acc.current_page + n, acc.processed_count + 1, acc.error_count,
           acc.bookmarks ++ [⟨t, acc.current_page, n⟩]⟩ := by
      simp [mergeStep, hn]
    have ihs := ih (mergeStep acc ⟨t, .readable n⟩) (fun d hd => hpos d (by simp [hd]))
    simp only [readableEntries, List.map_cons, List.foldl_cons] at ihs ⊢
    rw [ihs, hstep, MergeAcc.mk.injEq]
    refine ⟨?_, ?_, rfl, ?_⟩
    · simp only [List.map_cons, List.sum_cons]
      omega
    · simp only [List.length_cons]
      omega
    · simp [expectedBookmarks, List.append_assoc]

/-- Lengths of the predicted bookmark lists. -/
theorem expectedBookmarks_length (start : Nat) (docs : List (String × Nat)) :
    (expectedBookmarks start docs).length = docs.length := by
  induction docs generalizing start with
  | nil => rfl
  | cons d ds ih =>
    obtain ⟨t, n⟩ := d
    simp [expectedBookmarks, ih]

/-- The page offset of the `i`-th predicted bookmark is the start offset
plus the pages of the preceding documents. -/
theorem expectedBookmarks_page (start : Nat) (docs : List (String × Nat)) (i : Nat)
    (h : i < docs.length) :
    ((expectedBookmarks start docs)[i]?).map Bookmark.page
      = some (start + ((docs.map Prod.snd).take i).sum) := by
  induction docs generalizing start i with
  | nil => simp at h
  | cons d ds ih =>
    obtain ⟨t, n⟩ := d
    cases i with
    | zero => simp [expectedBookmarks]
    | succ j =>
      have hj : j < ds.length := by simpa using h
      have hih := ih (start + n) j hj
      simp only [expectedBookmarks, List.getElem?_cons_succ, List.map_cons,
        List.take_succ_cons, List.sum_cons] at hih ⊢
      rw [hih]
      congr 1
      omega

/-! ### Claim theorems: extractor and merger -/

/-- Claim C1 (shown false, the code is the slip): on the document with
anchors titled "A", "A", "A_2", the derived names are `A.pdf`, `A_2.pdf`,
`A_2.pdf` — the second and third records share a `fileName`, because the
renaming both strips trailing `.pdf` characters as a set and never
registers the renamed name in the collision dictionary. -/
theorem c1_duplicate_file_names :
    (addIndexForDuplicateTitles (extract_urls_from_html
        [⟨some "u1", "A"⟩, ⟨some "u2", "A"⟩, ⟨some "u3", "A_2"⟩])).map LinkRecord.file_name
      = ["A.pdf", "A_2.pdf", "A_2.pdf"]
    ∧ ¬ ((addIndexForDuplicateTitles (extract_urls_from_html
        [⟨some "u1", "A"⟩, ⟨some "u2", "A"⟩, ⟨some "u3", "A_2"⟩])).map
          LinkRecord.file_name).Nodup := by
  refine ⟨by decide, by decide⟩

/-- Claim C2 counterexample: in the three-record scenario with one absent
and one corrupt file, the result's error count is 1, not 2 — the absent
file is dropped with a warning by `get_pdf_files_in_order` and never
reaches the error counter. -/
theorem c2_counterexample :
    (merge_pdfs_with_bookmarks (get_pdf_files_in_order c2Links c2Dir)).error_count ≠ 2 := by
  decide

/-- Claim C2 (amended): for a merger input of three manifest records with
exactly one record's file readable and one corrupt (so the third absent),
the result has `processedCount = 1`, `errorCount = 1`, `success = true`. -/
theorem c2_merge_counts (links : List LinkRecord) (dir : List (String × PdfFile))
    (_hlen : links.length = 3)
    (hr : (links.filter (foundReadable dir)).length = 1)
    (hc : (links.filter (foundCorrupt dir)).length = 1) :
    (merge_pdfs_with_bookmarks (get_pdf_files_in_order links dir)).processed_count = 1
    ∧ (merge_pdfs_with_bookmarks (get_pdf_files_in_order links dir)).error_count = 1
    ∧ (merge_pdfs_with_bookmarks (get_pdf_files_in_order links dir)).success = true := by
  have h1 := mergeFold_counts (get_pdf_files_in_order links dir) ⟨0, 0, 0, []⟩
  have h2 := get_pdf_files_filter_counts links dir
  refine ⟨?_, ?_, rfl⟩
  · show (List.foldl mergeStep ⟨0, 0, 0, []⟩ (get_pdf_files_in_order links dir)).processed_count = 1
    rw [h1.1, h2.1, hr]
  · show (List.foldl mergeStep ⟨0, 0, 0, []⟩ (get_pdf_files_in_order links dir)).error_count = 1
    rw [h1.2, h2.2, hc]

/-- Witness for claim C2's theorem at the concrete scenario. -/
theorem c2_merge_counts_witness :
    (merge_pdfs_with_bookmarks (get_pdf_files_in_order c2Links c2Dir)).processed_count = 1
    ∧ (merge_pdfs_with_bookmarks (get_pdf_files_in_order c2Links c2Dir)).error_count = 1
    ∧ (merge_pdfs_with_bookmarks (get_pdf_files_in_order c2Links c2Dir)).success = true :=
  c2_merge_counts c2Links c2Dir (by decide) (by decide) (by decide)

/-- Claim C4 counterexample: a single readable document with zero pages is
merged (processed count 1) but receives no outline entry, so the output
does not carry one top-level entry per source document. -/
theorem c4_counterexample :
    (merge_pdfs_with_bookmarks (readableEntries [("T", 0)])).processed_count = 1
    ∧ (merge_pdfs_with_bookmarks (readableEntries [("T", 0)])).bookmarks_count = 0 := by
  refine ⟨by decide, by decide⟩

/-- Claim C4 (amended to positive page counts): merging N readable PDFs of
page counts `p1..pN`, all positive, yields `sum pi` pages, one bookmark
per source document, and bookmark `i` (0-based) points at page
`sum(p1..p(i-1))`. -/
theorem c4_merge_pages_bookmarks (docs : List (String × Nat))
    (hpos : ∀ d ∈ docs, 0 < d.2) :
    (merge_pdfs_with_bookmarks (readableEntries docs)).page_count = (docs.map Prod.snd).sum
    ∧ (merge_pdfs_with_bookmarks (readableEntries docs)).processed_count = docs.length
    ∧ (merge_pdfs_with_bookmarks (readableEntries docs)).error_count = 0
    ∧ (merge_pdfs_with_bookmarks (readableEntries docs)).bookmarks_count = docs.length
    ∧ (merge_pdfs_with_bookmarks (readableEntries docs)).bookmarks = expectedBookmarks 0 docs
    ∧ ∀ i, i < docs.length →
        (((merge_pdfs_with_bookmarks (readableEntries docs)).bookmarks[i]?).map Bookmark.page)
          = some (((docs.map Prod.snd).take i).sum) := by
  have hfold := mergeFold_readable_pos docs ⟨0, 0, 0, []⟩ hpos
  have hb : (merge_pdfs_with_bookmarks (readableEntries docs)).bookmarks
      = expectedBookmarks 0 docs := by
    simp [merge_pdfs_with_bookmarks, hfold]
  refine ⟨?_, ?_, ?_, ?_, hb, ?_⟩
  · simp [merge_pdfs_with_bookmarks, hfold]
  · simp [merge_pdfs_with_bookmarks, hfold]
  · simp [merge_pdfs_with_bookmarks, hfold]
  · simp [merge_pdfs_with_bookmarks, hfold, expectedBookmarks_length]
  · intro i hi
    rw [hb]
    simpa using expectedBookmarks_page 0 docs i hi

/-- Witness for claim C4's theorem at page counts 2 and 3. -/
theorem c4_merge_pages_bookmarks_witness :
    (merge_pdfs_with_bookmarks (readableEntries [("A", 2), ("B", 3)])).page_count = 5
    ∧ (merge_pdfs_with_bookmarks (readableEntries [("A", 2), ("B", 3)])).bookmarks
        = [⟨"A", 0, 2⟩, ⟨"B", 2, 3⟩] := by
  have h := c4_merge_pages_bookmarks [("A", 2), ("B", 3)] (by decide)
  refine ⟨by simpa using h.1, by rw [h.2.2.2.2.1]; decide⟩

/-- Claim C10: a zero-page PDF that reads successfully increments the
processed count but records no bookmark, so the merged result can carry
strictly fewer outline entries than processed source documents. -/
theorem c10_zero_page_no_bookmark :
    (∀ acc : MergeAcc, ∀ t : String,
        mergeStep acc ⟨t, .readable 0⟩
          = { acc with processed_count := acc.processed_count + 1 })
    ∧ ∃ files : List PdfEntry,
        (merge_pdfs_with_bookmarks files).bookmarks_count
            < (merge_pdfs_with_bookmarks files).processed_count
        ∧ (merge_pdfs_with_bookmarks files).bookmarks_count < files.length := by
  refine ⟨fun acc t => rfl, ⟨[⟨"A", .readable 2⟩, ⟨"B", .readable 0⟩], by decide, by decide⟩⟩

/-! ### Lemmas about the retry loop and the per-record renderer loop -/

/-- A run over at least one attempt makes at least one attempt. -/
theorem runNodeSaveAux_attempts_pos (i : Nat) (o : AttemptOutcome)
    (l : List AttemptOutcome) : 1 ≤ (runNodeSaveAux i (o :: l)).attempts := by
  cases l with
  | nil =>
    simp only [runNodeSaveAux]
    split
    · simp
    split
    · simp
    · simp
  | cons o2 rest =>
    simp only [runNodeSaveAux]
    split
    · simp
    · exact Nat.le_add_left 1 _

/-- The waits slept by the retry loop are exactly the exponential backoff
values `2 ^ attempt` for the attempts before the last one made. -/
theorem runNodeSaveAux_waits (i : Nat) (l : List AttemptOutcome) :
    (runNodeSaveAux i l).waits
      = (List.range ((runNodeSaveAux i l).attempts - 1)).map fun a => 2 ^ (i + a) := by
  induction l generalizing i with
  | nil => simp [runNodeSaveAux]
  | cons o rest ih =>
    cases rest with
    | nil =>
      simp only [runNodeSaveAux]
      split
      · simp
      split
      · simp
      · simp
    | cons o2 rest2 =>
      simp only [runNodeSaveAux]
      split
      · simp
      · have hpos := runNodeSaveAux_attempts_pos (i + 1) o2 rest2
        obtain ⟨k, hk⟩ : ∃ k, (runNodeSaveAux (i + 1) (o2 :: rest2)).attempts = k + 1 :=
          ⟨(runNodeSaveAux (i + 1) (o2 :: rest2)).attempts - 1, by omega⟩
        rw [ih (i + 1), hk]
        simp only [Nat.add_sub_cancel, List.range_succ_eq_map, List.map_cons, List.map_map]
        have hfun : ((fun a => 2 ^ (i + a)) ∘ Nat.succ) = fun a => 2 ^ (i + 1 + a) := by
          funext a
          simp only [Function.comp]
          congr 1
          omega
        rw [hfun]
        simp

/-- When every attempt fails, the retry loop makes one attempt per list
element and returns a non-zero code: it gives up after the retry limit. -/
theorem runNodeSaveAux_all_fail (i : Nat) (o : AttemptOutcome) (l : List AttemptOutcome)
    (hf : ∀ x ∈ o :: l, attemptOk x = false) :
    (runNodeSaveAux i (o :: l)).attempts = l.length + 1
    ∧ (runNodeSaveAux i (o :: l)).code ≠ 0 := by
  induction l generalizing i o with
  | nil =>
    have ho := hf o (by simp)
    simp only [runNodeSaveAux, ho, Bool.false_eq_true, if_false]
    by_cases hc : o.returncode = 0
    · simp [hc]
    · simp [hc, beq_iff_eq]
  | cons o2 rest ih =>
    have ho := hf o (by simp)
    have ihr := ih (i + 1) o2 (fun x hx => hf x (List.mem_cons_of_mem o hx))
    simp only [runNodeSaveAux, ho, Bool.false_eq_true, if_false]
    refine ⟨?_, ihr.2⟩
    simp only [List.length_cons]
    omega

/-- List-shaped wrapper for `runNodeSaveAux_all_fail`. -/
theorem runNodeSaveAux_all_fail_list (i : Nat) (l : List AttemptOutcome) (h : l ≠ [])
    (hf : ∀ x ∈ l, attemptOk x = false) :
    (runNodeSaveAux i l).attempts = l.length ∧ (runNodeSaveAux i l).code ≠ 0 := by
  cases l with
  | nil => exact absurd rfl h
  | cons o rest => simpa using runNodeSaveAux_all_fail i o rest hf

/-- The retry loop returns `0` exactly when some attempt in the list has
exit code `0` and the output file present. -/
theorem runNodeSaveAux_code_zero_iff (i : Nat) (o : AttemptOutcome)
    (l : List AttemptOutcome) :
    (runNodeSaveAux i (o :: l)).code = 0 ↔ ∃ x ∈ o :: l, attemptOk x = true := by
  induction l generalizing i o with
  | nil =>
    by_cases ho : attemptOk o
    · simp [runNodeSaveAux, ho]
    · simp only [Bool.not_eq_true] at ho
      simp only [runNodeSaveAux, ho, Bool.false_eq_true, if_false]
      by_cases hc : o.returncode = 0
      · simp [hc, ho]
      · simp [hc, beq_iff_eq, ho]
  | cons o2 rest ih =>
    by_cases ho : attemptOk o
    · simp [runNodeSaveAux, ho]
    · simp only [Bool.not_eq_true] at ho
      simp only [runNodeSaveAux, ho, Bool.false_eq_true, if_false]
      rw [ih (i + 1) o2]
      simp [ho]

/-- List-shaped wrapper for `runNodeSaveAux_code_zero_iff`. -/
theorem runNodeSaveAux_code_zero_iff_list (i : Nat) (l : List AttemptOutcome)
    (h : l ≠ []) :
    (runNodeSaveAux i l).code = 0 ↔ ∃ x ∈ l, attemptOk x = true := by
  cases l with
  | nil => exact absurd rfl h
  | cons o rest => exact runNodeSaveAux_code_zero_iff i o rest

/-- Files present before the renderer loop runs are still present after. -/
theorem renderLoop_fs_mono (saveOk : LinkRecord → Bool) (records : List LinkRecord)
    (fs : List String) : fs ⊆ (renderLoop saveOk records fs).fs := by
  induction records generalizing fs with
  | nil =>
    intro x hx
    simpa [renderLoop] using hx
  | cons r rs ih =>
    intro x hx
    by_cases hm : r.file_name ∈ fs
    · simpa [renderLoop, hm] using ih fs hx
    · by_cases hs : saveOk r
      · simpa [renderLoop, hm, hs] using ih (r.file_name :: fs) (by simp [hx])
      · simpa [renderLoop, hm, hs] using ih fs hx

/-- After a renderer run with zero failures, every record's target file is
present in the output directory. -/
theorem renderLoop_fail_zero_present (saveOk : LinkRecord → Bool)
    (records : List LinkRecord) :
    ∀ fs : List String, (renderLoop saveOk records fs).failed = 0 →
      ∀ r ∈ records, r.file_name ∈ (renderLoop saveOk records fs).fs := by
  induction records with
  | nil =>
    intro fs h q hq
    simp at hq
  | cons r rs ih =>
    intro fs h q hq
    by_cases hm : r.file_name ∈ fs
    · have hfail : (renderLoop saveOk rs fs).failed = 0 := by
        simpa [renderLoop, hm] using h
      rcases List.mem_cons.mp hq with h1 | h2
      · subst h1
        simp only [renderLoop, hm, if_pos]
        exact renderLoop_fs_mono saveOk rs fs hm
      · simp only [renderLoop, hm, if_pos]
        exact ih fs hfail q h2
    · by_cases hs : saveOk r
      · have hfail : (renderLoop saveOk rs (r.file_name :: fs)).failed = 0 := by
          simpa [renderLoop, hm, hs] using h

        rcases List.mem_cons.mp hq with h1 | h2
        · subst h1
          simp only [renderLoop, hm, hs, if_neg, if_pos]
          simp only [if_false]
          exact renderLoop_fs_mono saveOk rs (q.file_name :: fs) (by simp)
        · simp only [renderLoop, hm, hs, if_neg, if_pos]
          simp only [if_false]
          exact ih (r.file_name :: fs) hfail q h2
      · exfalso
        simp only [renderLoop, hm, hs] at h
        simp at h

/-- When every record's file already exists, the renderer loop invokes the
external command zero times and skips every record. -/
theorem renderLoop_all_present (saveOk : LinkRecord → Bool) (records : List LinkRecord)
    (fs : List String) (h : ∀ r ∈ records, r.file_name ∈ fs) :
    renderLoop saveOk records fs = ⟨fs, 0, 0, 0, records.length⟩ := by
  induction records with
  | nil => rfl
  | cons r rs ih =>
    have hm : r.file_name ∈ fs := h r (by simp)
    have ihr := ih (fun q hq => h q (by simp [hq]))
    simp [renderLoop, hm, ihr]

/-! ### Claim theorems: renderer -/

/-- Claim C5: with exponential backoff, a save whose first two attempts
fail and whose third succeeds returns success after 3 attempts with waits
of 1 then 2 seconds (here under `max_retries = 3`); in general the waits
between attempts are `2 ^ attempt` seconds, a save all of whose attempts
fail gives up after `max_retries + 1` attempts with a non-zero code, and
the per-record loop always continues to the next record, every record
being accounted for in the success/fail/skip counters. -/
theorem c5_retry_with_backoff (oracle : Nat → AttemptOutcome)
    (h0 : attemptOk (oracle 0) = false) (h1 : attemptOk (oracle 1) = false)
    (h2 : attemptOk (oracle 2) = true) :
    run_node_save oracle 3 = ⟨0, 3, [1, 2]⟩
    ∧ (∀ orc : Nat → AttemptOutcome, ∀ m : Nat,
        (∀ n, n ≤ m → attemptOk (orc n) = false) →
          (run_node_save orc m).attempts = m + 1 ∧ (run_node_save orc m).code ≠ 0)
    ∧ (∀ orc : Nat → AttemptOutcome, ∀ m : Nat,
        (run_node_save orc m).waits
          = (List.range ((run_node_save orc m).attempts - 1)).map fun a => 2 ^ a)
    ∧ (∀ saveOk : LinkRecord → Bool, ∀ records : List LinkRecord, ∀ fs : List String,
        (renderLoop saveOk records fs).succeeded + (renderLoop saveOk records fs).failed
            + (renderLoop saveOk records fs).skipped = records.length) := by
  refine ⟨?_, ?_, ?_, ?_⟩
  · have hr : List.range 4 = [0, 1, 2, 3] := by decide
    simp only [run_node_save, hr, List.map_cons, List.map_nil]
    simp only [runNodeSaveAux, h0, h1, h2, Bool.false_eq_true, if_false, if_true]
    norm_num
  · intro orc m hfail
    have hne : (List.range (m + 1)).map orc ≠ [] := by simp
    have hall : ∀ x ∈ (List.range (m + 1)).map orc, attemptOk x = false := by
      intro x hx
      simp only [List.mem_map, List.mem_range] at hx
      obtain ⟨n, hn, rfl⟩ := hx
      exact hfail n (by omega)
    have h := runNodeSaveAux_all_fail_list 0 _ hne hall
    simpa [run_node_save] using h
  · intro orc m
    have h := runNodeSaveAux_waits 0 ((List.range (m + 1)).map orc)
    simpa [run_node_save] using h
  · intro saveOk records fs
    induction records generalizing fs with
    | nil => simp [renderLoop]
    | cons r rs ih =>
      by_cases hm : r.file_name ∈ fs
      · have h := ih fs
        simp [renderLoop, hm]
        omega
      · by_cases hs : saveOk r
        · have h := ih (r.file_name :: fs)
          simp [renderLoop, hm, hs]
          omega
        · have h := ih fs
          simp [renderLoop, hm, hs]
          omega

/-- Witness for claim C5's theorem at the concrete fail-fail-succeed
oracle. -/
theorem c5_retry_with_backoff_witness :
    run_node_save c5Oracle 3 = ⟨0, 3, [1, 2]⟩ :=
  (c5_retry_with_backoff c5Oracle (by decide) (by decide) (by decide)).1

/-- Claim C7: after a renderer run with no failures, a second run over the
same manifest and output directory invokes the external command zero
times: every record is skipped because its target file exists. -/
theorem c7_renderer_idempotent (saveOk1 saveOk2 : LinkRecord → Bool)
    (records : List LinkRecord) (fs0 : List String)
    (hfirst : (renderLoop saveOk1 records fs0).failed = 0) :
    renderLoop saveOk2 records (renderLoop saveOk1 records fs0).fs
      = ⟨(renderLoop saveOk1 records fs0).fs, 0, 0, 0, records.length⟩ :=
  renderLoop_all_present saveOk2 records _
    (renderLoop_fail_zero_present saveOk1 records fs0 hfirst)

/-- Witness for claim C7's theorem on a one-record manifest whose first
run succeeds. -/
theorem c7_renderer_idempotent_witness :
    renderLoop (fun _ => true) c7Records (renderLoop (fun _ => true) c7Records []).fs
      = ⟨(renderLoop (fun _ => true) c7Records []).fs, 0, 0, 0, c7Records.length⟩ :=
  c7_renderer_idempotent (fun _ => true) (fun _ => true) c7Records [] (by decide)

/-- Claim C8: the retrying save returns success exactly when some attempt
has exit code `0` and the expected output file exists afterwards; an
attempt failing either condition is a failure. -/
theorem c8_success_iff_exit_zero_and_file (orc : Nat → AttemptOutcome) (m : Nat) :
    ((run_node_save orc m).code = 0
      ↔ ∃ n, n ≤ m ∧ (orc n).returncode = 0 ∧ (orc n).fileExists = true)
    ∧ ∀ o : AttemptOutcome,
        ((run_node_save (fun _ => o) 0).code = 0
          ↔ (o.returncode = 0 ∧ o.fileExists = true)) := by
  constructor
  · have h := runNodeSaveAux_code_zero_iff_list 0 ((List.range (m + 1)).map orc) (by simp)
    simp only [run_node_save]
    rw [h]
    constructor
    · rintro ⟨x, hx, hok⟩
      simp only [List.mem_map, List.mem_range] at hx
      obtain ⟨n, hn, rfl⟩ := hx
      simp only [attemptOk, Bool.and_eq_true, beq_iff_eq] at hok
      exact ⟨n, by omega, hok.1, hok.2⟩
    · rintro ⟨n, hn, hrc, hfe⟩
      refine ⟨orc n, ?_, ?_⟩
      · simp only [List.mem_map, List.mem_range]
        exact ⟨n, by omega, rfl⟩
      · simp [attemptOk, hrc, hfe]
  · intro o
    have h := runNodeSaveAux_code_zero_iff_list 0 [o] (by simp)
    have hl : (List.range 1).map (fun _ : Nat => o) = [o] := rfl
    simp only [run_node_save, hl]
    rw [h]
    simp [attemptOk, Bool.and_eq_true, beq_iff_eq]

/-! ### Claim theorems: URL joining, extraction shape, manifest round trip -/

/-- Claim C3 counterexample: with a trailing slash on the base URL and a
leading slash on the relative url, the code produces a doubled slash, not
exactly one separating slash. -/
theorem c3_counterexample :
    full_url "http://x/" "/a" = "http://x//a"
    ∧ full_url "http://x/" "/a" ≠ specJoinOneSlash "http://x/" "/a" := by
  refine ⟨by decide, by decide⟩

/-- Claim C3 (amended): the absolute URL is `baseUrl` with trailing
slashes stripped, then one `/`, then the record's relative `url` verbatim;
when the relative url does not begin with a slash this coincides with the
one-separating-slash join, for every trailing-slash state of `baseUrl`. -/
theorem c3_join_one_slash (base_url url : String) (h : url.data.head? ≠ some '/') :
    full_url base_url url = specJoinOneSlash base_url url := by
  have hdrop : url.data.dropWhile (fun c => c = '/') = url.data := by
    cases hd : url.data with
    | nil => rfl
    | cons c cs =>
      have hc : ¬ c = '/' := by
        intro hc
        exact h (by rw [hd, hc]; rfl)
      simp [List.dropWhile_cons, hc]
  simp only [full_url, specJoinOneSlash, hdrop]

/-- Witness for claim C3's theorem at a slash-free relative url. -/
theorem c3_join_one_slash_witness :
    full_url "http://x/" "a" = specJoinOneSlash "http://x/" "a" :=
  c3_join_one_slash "http://x/" "a" (by decide)

/-- Claim C6 counterexample: an anchor that carries the reference
attribute with empty value and non-empty text yields no record in the
code, though the spec's description keeps it. -/
theorem c6_counterexample :
    extract_urls_from_html [⟨some "", "Hi"⟩] ≠ specExtractRecords [⟨some "", "Hi"⟩] := by
  decide

/-- Claim C6 (amended to non-empty reference values): extraction yields
exactly one record per anchor whose reference attribute is present and
non-empty and whose whitespace-collapsed text is non-empty, in document
order; all other anchors yield no record. -/
theorem c6_extraction_order (anchors : List Anchor) :
    extract_urls_from_html anchors = (anchors.filter keepsAnchor).map anchorRecord := by
  induction anchors with
  | nil => rfl
  | cons a rest ih =>
    obtain ⟨oh, t⟩ := a
    cases oh with
    | none =>
      simpa [extract_urls_from_html, keepsAnchor] using ih
    | some href =>
      by_cases hh : href = ""
      · subst hh
        simpa [extract_urls_from_html, keepsAnchor] using ih
      · by_cases ht : normalizeWs t = ""
        · simpa [extract_urls_from_html, keepsAnchor, hh, ht] using ih
        · simpa [extract_urls_from_html, keepsAnchor, anchorRecord, hh, ht] using ih

/-- Decoding inverts encoding on one link record. -/
theorem decodeLink_encodeLink (l : LinkRecord) : decodeLink (encodeLink l) = some l := rfl

/-- Decoding inverts encoding on a link list. -/
theorem decodeLinks_map_encodeLink (links : List LinkRecord) :
    decodeLinks (links.map encodeLink) = some links := by
  induction links with
  | nil => rfl
  | cons l ls ih =>
    simp only [List.map_cons, decodeLinks, decodeLink_encodeLink, ih]

/-- Claim C9: writing a manifest and reading it back yields the identical
structure — `totalCount` equals the number of links, `baseUrl` is
preserved verbatim, the link sequence is preserved in order, and the field
names and their order are fixed. -/
theorem c9_manifest_round_trip (links : List LinkRecord) (base_url : String) :
    read_manifest (write_extracted_json links base_url)
        = some ⟨links.length, base_url, links⟩
    ∧ jkeys (write_extracted_json links base_url) = ["totalCount", "baseUrl", "links"]
    ∧ ∀ l ∈ links, jkeys (encodeLink l) = ["url", "title", "file_name"] := by
  refine ⟨?_, rfl, ?_⟩
  · have h1 : read_manifest (write_extracted_json links base_url)
        = (decodeLinks (links.map encodeLink)).map fun ls =>
            (⟨links.length, base_url, ls⟩ : Manifest) := rfl
    rw [h1, decodeLinks_map_encodeLink]
    rfl
  · intro l hl
    rfl

/-- Witness for claim C9's theorem at a one-link manifest. -/
theorem c9_manifest_round_trip_witness :
    read_manifest (write_extracted_json [⟨"/a", "A", "A.pdf"⟩] "http://x")
      = some ⟨1, "http://x", [⟨"/a", "A", "A.pdf"⟩]⟩ :=
  (c9_manifest_round_trip [⟨"/a", "A", "A.pdf"⟩] "http://x").1

end DocsToPdf
